import Mathlib

/-!
# Verification of the digantara task-scheduler core

Shallow embedding of the scheduling core of the repository:

* `Job`, `JobStatus`              — `src/database/job-model.js` (job schema; the
  corrected revision of `markFailed`, which records `status = failed`, is the
  one adopted here, matching the latest revision of the model file; the older
  revision that keeps the status `active` is embedded as `markFailedLegacy`).
* cron Evaluator                  — the repository delegates parsing and
  next-trigger computation to the external `cron-parser` package, whose code is
  not part of the repository; it is modelled from the spec here (`parse5`,
  `nextTrigger`).
* `Store` operations              — `src/database/job-repository.js` /
  `job-service.js` (`markCompleted`, `markFailed`, `updateNextRun`,
  `findActiveJobs`).
* `execute`                       — `JobExecutor.execute` in
  `src/scheduler/job-executor.js`.
* `SchedulerState`, `scheduleJob`, `unscheduleJob`, `shutdown`, `onFire`
                                  — `SchedulerManager` in
  `src/scheduler/scheduler-manager.js` (the `scheduledTasks` JS `Map` is
  embedded as an association list with JS-`Map` operations).
* `discoverAndScheduleJobs`       — `JobDiscovery` in
  `src/scheduler/job-discovery.js`.
-/

namespace Digantara

/-! ## Job data model (`src/database/job-model.js`) -/

/-- Job status enum from the schema: `['active', 'paused', 'completed', 'failed']`. -/
inductive JobStatus
  | active
  | paused
  | completed
  | failed
  deriving DecidableEq, Repr

/-- A persisted job record.  `id` is the Mongo `_id` rendered as a string
(`job._id.toString()` is how the scheduler keys its map).  The `data` payload
and the timestamp bookkeeping fields are opaque to the scheduling core and are
not modelled. -/
structure Job where
  id : String
  name : String
  description : String
  cronSchedule : String
  jobType : String
  status : JobStatus
  lastRun : Option Nat
  nextRun : Option Nat
  deriving DecidableEq, Repr

/-! ## Cron Expression Evaluator

Modelled from the spec: the repository computes next-trigger instants with the
external `cron-parser` npm package (`cronParser.parseExpression(expr).next()`),
whose source is not part of this repository.  Per the spec, the Evaluator
parses a 5-field cron expression (minute hour day-of-month month day-of-week),
each field resolving to a valid range for its position, and `nextTrigger`
returns the earliest instant strictly after the reference time that satisfies
all fields.  Instants are minutes since the Unix epoch (cron has minute
granularity in 5-field mode). -/

/-- One comma-separated term of a cron field.  `step k` is `*` (`k = 1`) or
`*/k`; `range a b k` is `n` (`a = b = n`, `k = 1`), `a-b`, or `a-b/k`. -/
inductive CronTerm
  | step (k : Nat)
  | range (a b k : Nat)
  deriving DecidableEq, Repr

/-- A cron field is a nonempty comma-separated list of terms. -/
abbrev CronField := List CronTerm

/-- A parsed 5-field cron expression. -/
structure CronExpr where
  minute : CronField
  hour : CronField
  dayOfMonth : CronField
  month : CronField
  dayOfWeek : CronField
  deriving DecidableEq, Repr

/-- Split a character list at every occurrence of the separator (the
character-level counterpart of JS `String.prototype.split` with a one-character
separator). -/
def splitOnChar (c : Char) : List Char → List (List Char)
  | [] => [[]]
  | x :: xs =>
    let r := splitOnChar c xs
    if x == c then [] :: r
    else
      match r with
      | [] => [[x]]
      | w :: ws => (x :: w) :: ws

/-- The numeric value of a decimal digit character. -/
def charDigit (c : Char) : Option Nat :=
  if '0' ≤ c ∧ c ≤ '9' then some (c.toNat - '0'.toNat) else none

/-- Parse a nonempty all-digit character list as a natural number. -/
def natOfChars : List Char → Option Nat
  | [] => none
  | l => l.foldlM (fun acc c => (charDigit c).map (fun d => acc * 10 + d)) 0

/-- Parse the base of a term (before any `/step`), checking the positional
range `lo..hi`. -/
def parseTermBase (lo hi k : Nat) (base : List Char) : Option CronTerm :=
  if base = ['*'] then some (.step k)
  else
    match splitOnChar '-' base with
    | [a] =>
      match natOfChars a with
      | some n => if lo ≤ n ∧ n ≤ hi then some (.range n n k) else none
      | none => none
    | [a, b] =>
      match natOfChars a, natOfChars b with
      | some x, some y => if lo ≤ x ∧ x ≤ y ∧ y ≤ hi then some (.range x y k) else none
      | _, _ => none
    | _ => none

/-- Parse one term, splitting off an optional `/step`. -/
def parseTerm (lo hi : Nat) (s : List Char) : Option CronTerm :=
  match splitOnChar '/' s with
  | [base] => parseTermBase lo hi 1 base
  | [base, ks] =>
    match natOfChars ks with
    | some k => if k = 0 then none else parseTermBase lo hi k base
    | none => none
  | _ => none

/-- Parse a whole field (comma-separated terms). -/
def parseField (lo hi : Nat) (s : List Char) : Option CronField :=
  (splitOnChar ',' s).mapM (parseTerm lo hi)

/-- Parse a 5-field cron expression; `none` models the `InvalidExpression`
failure of the Evaluator (a thrown parse error in `cron-parser`).  Positional
ranges: minute 0-59, hour 0-23, day-of-month 1-31, month 1-12,
day-of-week 0-7 (both 0 and 7 denote Sunday). -/
def parse5 (s : String) : Option CronExpr :=
  match (splitOnChar ' ' s.toList).filter (fun w => w ≠ []) with
  | [m, h, d, mo, w] =>
    match parseField 0 59 m, parseField 0 23 h, parseField 1 31 d,
        parseField 1 12 mo, parseField 0 7 w with
    | some fm, some fh, some fd, some fmo, some fw =>
      some ⟨fm, fh, fd, fmo, fw⟩
    | _, _, _, _, _ => none
  | _ => none

/-- Does value `v` satisfy one term?  `lo` is the low end of the positional
range (a bare `*` or `*/k` steps from `lo`). -/
def matchesTerm (lo v : Nat) : CronTerm → Bool
  | .step k => (v - lo) % k == 0
  | .range a b k => decide (a ≤ v) && decide (v ≤ b) && ((v - a) % k == 0)

/-- Does value `v` satisfy a field? -/
def matchesField (lo v : Nat) (f : CronField) : Bool :=
  f.any (matchesTerm lo v)

/-- Minute-of-hour of an instant. -/
def minOfHour (t : Nat) : Nat := t % 60

/-- Hour-of-day of an instant. -/
def hourOfDay (t : Nat) : Nat := t / 60 % 24

/-- Day-of-week of an instant (0 = Sunday; the epoch day 1970-01-01 was a
Thursday, weekday 4). -/
def weekdayOfTime (t : Nat) : Nat := (t / 1440 + 4) % 7

/-- Civil date `(year, month, day)` from a count of days since 1970-01-01
(standard era-based Gregorian conversion). -/
def civilFromDays (z : Nat) : Nat × Nat × Nat :=
  let z' := z + 719468
  let era := z' / 146097
  let doe := z' % 146097
  let yoe := (doe - doe / 1460 + doe / 36524 - doe / 146096) / 365
  let y := yoe + era * 400
  let doy := doe - (365 * yoe + yoe / 4 - yoe / 100)
  let mp := (5 * doy + 2) / 153
  let d := doy - (153 * mp + 2) / 5 + 1
  let m := if mp < 10 then mp + 3 else mp - 9
  (if m ≤ 2 then y + 1 else y, m, d)

/-- Day-of-month of an instant. -/
def domOfTime (t : Nat) : Nat := (civilFromDays (t / 1440)).2.2

/-- Month of an instant. -/
def monthOfTime (t : Nat) : Nat := (civilFromDays (t / 1440)).2.1

/-- Does the instant `t` satisfy all five fields of the expression?  (The
day-of-week field accepts 7 as a synonym for Sunday, hence the `+ 7`
disjunct.) -/
def timeMatches (e : CronExpr) (t : Nat) : Bool :=
  matchesField 0 (minOfHour t) e.minute &&
  matchesField 0 (hourOfDay t) e.hour &&
  matchesField 1 (domOfTime t) e.dayOfMonth &&
  matchesField 1 (monthOfTime t) e.month &&
  (matchesField 0 (weekdayOfTime t) e.dayOfWeek ||
    matchesField 0 (weekdayOfTime t + 7) e.dayOfWeek)

/-- Fuel-bounded linear search for the first matching instant at or after `t`. -/
def searchFrom (e : CronExpr) : Nat → Nat → Option Nat
  | _, 0 => none
  | t, fuel + 1 => if timeMatches e t then some t else searchFrom e (t + 1) fuel

/-- Search horizon, a little over nine years of minutes (`cron-parser` likewise
gives up after a bounded number of iterations with an "out of range" error). -/
def searchHorizon : Nat := 5000000

/-- The earliest instant strictly after `ref` satisfying the expression
(`none` models the evaluator's failure when no instant in the horizon
matches). -/
def nextTrigger (e : CronExpr) (ref : Nat) : Option Nat :=
  searchFrom e (ref + 1) searchHorizon

/-- `JobValidator.calculateNextRunTime` (`src/database/job-validator.js`):
parse the expression, then take the next trigger after `now`; a parse failure
or exhausted search is a thrown error (`none`). -/
def calculateNextRunTime (cronSchedule : String) (now : Nat) : Option Nat :=
  (parse5 cronSchedule).bind fun e => nextTrigger e now

/-! ## Job Store operations
(`src/database/job-repository.js` + instance methods of the job model; the
repository methods throw `Job not found` when the id has no record, modelled
as `none`). -/

/-- The persisted job collection. -/
abbrev Store := List Job

/-- `Job.findActiveJobs` / `repository.findActiveJobs`: all records with
`status = 'active'`. -/
def findActiveJobs (store : Store) : List Job :=
  store.filter (fun j => j.status == JobStatus.active)

/-- The ids of the active jobs of a store. -/
def activeIds (store : Store) : List String :=
  (findActiveJobs store).map (fun j => j.id)

/-- `repository.findById` / `Job.findById`. -/
def findJob (store : Store) (id : String) : Option Job :=
  store.find? (fun j => j.id == id)

/-- `repository.markCompleted`: look the job up (throwing when absent), then
`job.markCompleted()` sets `status := 'active'` (a recurring job stays active)
and `lastRun := now`. -/
def markCompleted (store : Store) (id : String) (now : Nat) : Option Store :=
  if store.any (fun j => j.id == id) then
    some (store.map fun j =>
      if j.id == id then { j with status := .active, lastRun := some now } else j)
  else none

/-- `repository.markFailed` with the corrected revision of the model's
`markFailed`: `status := 'failed'` (so the failure can be reviewed) and
`lastRun := now`; `nextRun` untouched. -/
def markFailed (store : Store) (id : String) (now : Nat) : Option Store :=
  if store.any (fun j => j.id == id) then
    some (store.map fun j =>
      if j.id == id then { j with status := .failed, lastRun := some now } else j)
  else none

/-- The older revision of the model's `markFailed`, which keeps
`status := 'active'` so the job retries on its next tick.  The two revisions
coexist in the repository; the spec adopts the corrected (`failed`) policy. -/
def markFailedLegacy (store : Store) (id : String) (now : Nat) : Option Store :=
  if store.any (fun j => j.id == id) then
    some (store.map fun j =>
      if j.id == id then { j with status := .active, lastRun := some now } else j)
  else none

/-- `repository.updateNextRun`: `findByIdAndUpdate(id, { nextRun })`, throwing
when the id has no record. -/
def updateNextRun (store : Store) (id : String) (nr : Nat) : Option Store :=
  if store.any (fun j => j.id == id) then
    some (store.map fun j =>
      if j.id == id then { j with nextRun := some nr } else j)
  else none

/-! ## Job Executor (`JobExecutor.execute`, `src/scheduler/job-executor.js`)

The type-specific handlers (`sendEmail`, `sendReminder`, generic task) only
simulate work; whether the handler raises is an oracle parameter `handlerOk`.
The whole body runs in one `try`: a throw anywhere before the final store
write lands in the `catch`, which calls `markJobFailed` against the store as
already mutated.  `execute` returns `none` exactly when an exception escapes
it (only possible when the `catch`'s own `markJobFailed` throws, i.e. the job
record is gone). -/

/-- One run of `execute(job)` against `store`, with handler outcome
`handlerOk` and current time `now`. -/
def execute (store : Store) (job : Job) (handlerOk : Bool) (now : Nat) :
    Option Store :=
  if handlerOk then
    match calculateNextRunTime job.cronSchedule now with
    | none => markFailed store job.id now
    | some nr =>
      match markCompleted store job.id now with
      | none => markFailed store job.id now
      | some s1 =>
        match updateNextRun s1 job.id nr with
        | none => markFailed s1 job.id now
        | some s2 => some s2
  else
    markFailed store job.id now

/-! ## Timer Registry / Scheduler Manager
(`src/scheduler/scheduler-manager.js`).  The JS `Map` of scheduled tasks is an
association list; `Map.set` replaces an existing key in place, `Map.delete`
removes it, `Map.has` tests membership. -/

/-- The live timer handle kept per job id: the `node-cron` task together with
the cron expression it was built from. -/
structure CronTask where
  cronSchedule : String
  deriving DecidableEq, Repr

/-- The entry map type of the registry. -/
abbrev TaskMap := List (String × CronTask)

/-- JS `Map.prototype.has`. -/
def mapHas (m : TaskMap) (k : String) : Bool :=
  m.any (fun p => p.1 == k)

/-- JS `Map.prototype.delete`. -/
def mapDelete (m : TaskMap) (k : String) : TaskMap :=
  m.filter (fun p => !(p.1 == k))

/-- JS `Map.prototype.set` (replace in place when present, else append). -/
def mapSet (m : TaskMap) (k : String) (v : CronTask) : TaskMap :=
  if mapHas m k then m.map (fun p => if p.1 == k then (k, v) else p)
  else m ++ [(k, v)]

/-- The keys of a task map (`getScheduledJobIds`). -/
def keys (m : TaskMap) : List String := m.map (fun p => p.1)

/-- Mutable state of the `SchedulerManager` (plus the Discovery Loop's
running flag, which `shutdown` clears via `jobDiscovery.stop()`). -/
structure SchedulerState where
  scheduledTasks : TaskMap
  isShuttingDown : Bool
  discoveryRunning : Bool
  deriving DecidableEq, Repr

/-- `unscheduleJob(jobId)`: if an entry exists, stop the task and delete the
entry; otherwise do nothing. -/
def unscheduleJob (st : SchedulerState) (jobId : String) : SchedulerState :=
  if mapHas st.scheduledTasks jobId then
    { st with scheduledTasks := mapDelete st.scheduledTasks jobId }
  else st

/-- `scheduleJob(job)`: reject while shutting down; always first stop any
existing task for the id; skip non-active jobs; validate the cron expression
(the `try`/`catch` turns an `InvalidExpression` throw into a logged skip);
on success install the recurring task under the job's id. -/
def scheduleJob (st : SchedulerState) (job : Job) : SchedulerState :=
  if st.isShuttingDown then st
  else
    let st1 := unscheduleJob st job.id
    if job.status ≠ JobStatus.active then st1
    else
      match parse5 job.cronSchedule with
      | none => st1
      | some _ =>
        { st1 with
          scheduledTasks := mapSet st1.scheduledTasks job.id ⟨job.cronSchedule⟩ }

/-- `stop()`: stop every task and clear the map. -/
def stopAllTasks (st : SchedulerState) : SchedulerState :=
  { st with scheduledTasks := [] }

/-- `jobDiscovery.stop()`. -/
def stopDiscovery (st : SchedulerState) : SchedulerState :=
  { st with discoveryRunning := false }

/-- The grace period `shutdown` awaits (`setTimeout(resolve, 1000)`). -/
def shutdownGraceMs : Nat := 1000

/-- `shutdown()`: set the shutting-down flag, stop the Discovery Loop, stop
and clear all tasks, then wait the grace period (returned in milliseconds). -/
def shutdown (st : SchedulerState) : SchedulerState × Nat :=
  let st1 := { st with isShuttingDown := true }
  let st2 := stopDiscovery st1
  let st3 := stopAllTasks st2
  (st3, shutdownGraceMs)

/-- Outcome of one timer firing. -/
inductive FireOutcome
  | skipped
  | executed (result : Option Store)
  deriving DecidableEq

/-- The trigger callback installed by `scheduleJob`: when shutting down the
firing is rejected before any execution starts; otherwise it awaits
`execute(job)`.  The callback never touches the task map. -/
def onFire (st : SchedulerState) (store : Store) (job : Job)
    (handlerOk : Bool) (now : Nat) : SchedulerState × FireOutcome :=
  if st.isShuttingDown then (st, .skipped)
  else (st, .executed (execute store job handlerOk now))

/-! ## Discovery Loop (`JobDiscovery.discoverAndScheduleJobs`,
`src/scheduler/job-discovery.js`) -/

/-- One reconciliation pass: fetch the active jobs, snapshot the currently
registered ids, schedule every active job not yet registered, then unschedule
every registered id that is no longer active. -/
def discoverAndScheduleJobs (st : SchedulerState) (store : Store) :
    SchedulerState :=
  let activeJobs := findActiveJobs store
  let currentJobIds := keys st.scheduledTasks
  let activeJobIds := activeJobs.map (fun j => j.id)
  let newJobs := activeJobs.filter (fun j => !(currentJobIds.contains j.id))
  let st1 := newJobs.foldl scheduleJob st
  let toUnschedule := currentJobIds.filter (fun i => !(activeJobIds.contains i))
  toUnschedule.foldl unscheduleJob st1

/-! ## Lemmas about the task map -/

theorem mapHas_iff_mem_keys (m : TaskMap) (k : String) :
    mapHas m k = true ↔ k ∈ keys m := by
  simp only [mapHas, keys, List.any_eq_true, List.mem_map, beq_iff_eq]

theorem mem_keys_mapDelete (m : TaskMap) (k a : String) :
    a ∈ keys (mapDelete m k) ↔ a ∈ keys m ∧ a ≠ k := by
  simp only [keys, mapDelete, List.mem_map, List.mem_filter, Bool.not_eq_true',
    beq_eq_false_iff_ne, ne_eq]
  aesop

theorem mapHas_mapDelete_self (m : TaskMap) (k : String) :
    mapHas (mapDelete m k) k = false := by
  rw [Bool.eq_false_iff]
  intro h
  exact ((mem_keys_mapDelete m k k).1 ((mapHas_iff_mem_keys _ _).1 h)).2 rfl

theorem mapDelete_of_not_has (m : TaskMap) (k : String)
    (h : mapHas m k = false) : mapDelete m k = m := by
  apply List.filter_eq_self.2
  intro p hp
  unfold mapHas at h
  rw [List.any_eq_false] at h
  simp [h p hp]

/-! ## Lemmas about `unscheduleJob` and `scheduleJob` -/

theorem unscheduleJob_scheduledTasks (st : SchedulerState) (k : String) :
    (unscheduleJob st k).scheduledTasks = mapDelete st.scheduledTasks k := by
  unfold unscheduleJob
  split
  · rfl
  · rename_i h
    rw [mapDelete_of_not_has _ _ (by simpa using h)]

theorem unscheduleJob_flags (st : SchedulerState) (k : String) :
    (unscheduleJob st k).isShuttingDown = st.isShuttingDown ∧
    (unscheduleJob st k).discoveryRunning = st.discoveryRunning := by
  unfold unscheduleJob
  split <;> exact ⟨rfl, rfl⟩

theorem mem_keys_unscheduleJob (st : SchedulerState) (k a : String) :
    a ∈ keys (unscheduleJob st k).scheduledTasks ↔
      a ∈ keys st.scheduledTasks ∧ a ≠ k := by
  rw [unscheduleJob_scheduledTasks]
  exact mem_keys_mapDelete _ _ _

theorem mapHas_unscheduleJob_self (st : SchedulerState) (k : String) :
    mapHas (unscheduleJob st k).scheduledTasks k = false := by
  rw [unscheduleJob_scheduledTasks]
  exact mapHas_mapDelete_self _ _

/-- On a non-shutting-down state, `scheduleJob` of a non-active job, or of a
job whose cron expression fails validation, is exactly `unscheduleJob` of the
job's id. -/
theorem scheduleJob_eq_unscheduleJob (st : SchedulerState) (job : Job)
    (h1 : st.isShuttingDown = false)
    (h2 : job.status ≠ JobStatus.active ∨ parse5 job.cronSchedule = none) :
    scheduleJob st job = unscheduleJob st job.id := by
  unfold scheduleJob
  rw [h1]
  simp only [Bool.false_eq_true, if_false]
  rcases h2 with h2 | h2
  · rw [if_pos h2]
  · by_cases hs : job.status ≠ JobStatus.active
    · rw [if_pos hs]
    · rw [if_neg hs, h2]

/-- On a non-shutting-down state, `scheduleJob` of an active job with a valid
cron expression first deletes any entry for the id, then appends a fresh
entry. -/
theorem scheduleJob_tasks_active_valid (st : SchedulerState) (job : Job)
    (e : CronExpr) (h1 : st.isShuttingDown = false)
    (h2 : job.status = JobStatus.active) (h3 : parse5 job.cronSchedule = some e) :
    (scheduleJob st job).scheduledTasks =
      mapDelete st.scheduledTasks job.id ++ [(job.id, ⟨job.cronSchedule⟩)] := by
  unfold scheduleJob
  rw [h1]
  simp only [Bool.false_eq_true, if_false, h2, ne_eq, not_true_eq_false, if_false, h3]
  show mapSet (unscheduleJob st job.id).scheduledTasks job.id ⟨job.cronSchedule⟩ = _
  rw [unscheduleJob_scheduledTasks]
  unfold mapSet
  rw [mapHas_mapDelete_self]
  simp

/-- `scheduleJob` never touches the two flags. -/
theorem scheduleJob_flags (st : SchedulerState) (job : Job) :
    (scheduleJob st job).isShuttingDown = st.isShuttingDown ∧
    (scheduleJob st job).discoveryRunning = st.discoveryRunning := by
  unfold scheduleJob
  split
  · exact ⟨rfl, rfl⟩
  · split
    · exact unscheduleJob_flags st _
    · split
      · exact unscheduleJob_flags st _
      · exact ⟨(unscheduleJob_flags st _).1, (unscheduleJob_flags st _).2⟩

theorem mem_keys_scheduleJob_active_valid (st : SchedulerState) (job : Job)
    (e : CronExpr) (h1 : st.isShuttingDown = false)
    (h2 : job.status = JobStatus.active) (h3 : parse5 job.cronSchedule = some e)
    (a : String) :
    a ∈ keys (scheduleJob st job).scheduledTasks ↔
      a ∈ keys st.scheduledTasks ∨ a = job.id := by
  rw [scheduleJob_tasks_active_valid st job e h1 h2 h3]
  simp only [keys, List.map_append, List.mem_append, List.map_cons, List.map_nil,
    List.mem_singleton]
  rw [show (mapDelete st.scheduledTasks job.id).map (fun p => p.1) =
      keys (mapDelete st.scheduledTasks job.id) from rfl]
  constructor
  · rintro (h | h)
    · exact Or.inl ((mem_keys_mapDelete _ _ _).1 h).1
    · exact Or.inr h
  · rintro (h | h)
    · by_cases hid : a = job.id
      · exact Or.inr hid
      · exact Or.inl ((mem_keys_mapDelete _ _ _).2 ⟨h, hid⟩)
    · exact Or.inr h

/-- Membership after phase one of a reconciliation pass: folding `scheduleJob`
over a list of active, valid jobs registers exactly their ids on top of the
existing ones. -/
theorem mem_keys_foldl_scheduleJob (js : List Job) :
    ∀ st : SchedulerState, st.isShuttingDown = false →
      (∀ j ∈ js, j.status = JobStatus.active ∧ (parse5 j.cronSchedule).isSome) →
      ∀ a : String,
        (a ∈ keys (js.foldl scheduleJob st).scheduledTasks ↔
          a ∈ keys st.scheduledTasks ∨ a ∈ js.map (fun j => j.id)) := by
  induction js with
  | nil => intro st _ _ a; simp
  | cons j js ih =>
    intro st hflag hjobs a
    have hj := hjobs j (List.mem_cons_self j js)
    rcases Option.isSome_iff_exists.1 hj.2 with ⟨e, he⟩
    have hflag' : (scheduleJob st j).isShuttingDown = false :=
      (scheduleJob_flags st j).1.trans hflag
    have hrest : ∀ x ∈ js, x.status = JobStatus.active ∧ (parse5 x.cronSchedule).isSome :=
      fun x hx => hjobs x (List.mem_cons_of_mem j hx)
    rw [List.foldl_cons, ih (scheduleJob st j) hflag' hrest a,
      mem_keys_scheduleJob_active_valid st j e hflag hj.1 he a]
    simp only [List.map_cons, List.mem_cons]
    tauto

/-- Membership after phase two: folding `unscheduleJob` over a list of ids
removes exactly those ids. -/
theorem mem_keys_foldl_unscheduleJob (ids : List String) :
    ∀ (st : SchedulerState) (a : String),
      (a ∈ keys (ids.foldl unscheduleJob st).scheduledTasks ↔
        a ∈ keys st.scheduledTasks ∧ a ∉ ids) := by
  induction ids with
  | nil => intro st a; simp
  | cons i ids ih =>
    intro st a
    rw [List.foldl_cons, ih (unscheduleJob st i) a, mem_keys_unscheduleJob st i a]
    simp only [List.mem_cons]
    tauto

theorem mem_activeIds (store : Store) (a : String) :
    a ∈ activeIds store ↔ ∃ j ∈ store, j.status = JobStatus.active ∧ j.id = a := by
  simp only [activeIds, findActiveJobs, List.mem_map, List.mem_filter, beq_iff_eq]
  tauto

theorem mem_map_id_filter_not_contains (js : List Job) (ids : List String)
    (a : String) :
    a ∈ (js.filter (fun j => !(ids.contains j.id))).map (fun j => j.id) ↔
      a ∈ js.map (fun j => j.id) ∧ a ∉ ids := by
  simp only [List.mem_map, List.mem_filter, Bool.not_eq_true']
  constructor
  · rintro ⟨j, ⟨hj, hnot⟩, rfl⟩
    exact ⟨⟨j, hj, rfl⟩, by simpa using hnot⟩
  · rintro ⟨⟨j, hj, rfl⟩, hnot⟩
    exact ⟨j, ⟨hj, by simpa using hnot⟩, rfl⟩

theorem mem_filter_not_contains (l ids : List String) (a : String) :
    a ∈ l.filter (fun i => !(ids.contains i)) ↔ a ∈ l ∧ a ∉ ids := by
  simp only [List.mem_filter, Bool.not_eq_true']
  constructor
  · rintro ⟨h1, h2⟩
    exact ⟨h1, by simpa using h2⟩
  · rintro ⟨h1, h2⟩
    exact ⟨h1, by simpa using h2⟩

/-- Full characterization of one reconciliation pass, assuming the scheduler
is not shutting down and every active job's cron expression is valid: an id is
registered afterwards exactly when it is the id of an active job of the
store. -/
theorem reconcile_mem_keys (st : SchedulerState) (store : Store)
    (h1 : st.isShuttingDown = false)
    (h2 : ∀ j ∈ store, j.status = JobStatus.active → (parse5 j.cronSchedule).isSome)
    (id : String) :
    id ∈ keys (discoverAndScheduleJobs st store).scheduledTasks ↔
      id ∈ activeIds store := by
  simp only [discoverAndScheduleJobs]
  rw [mem_keys_foldl_unscheduleJob,
    mem_keys_foldl_scheduleJob _ st h1 (by
      intro j hj
      have hj' := List.mem_filter.1 hj
      have hj'' := List.mem_filter.1 hj'.1
      exact ⟨by simpa using hj''.2, h2 j hj''.1 (by simpa using hj''.2)⟩) id]
  rw [mem_map_id_filter_not_contains, mem_filter_not_contains]
  show (_ ∈ keys st.scheduledTasks ∨ id ∈ activeIds store ∧ _) ∧ _ ↔ _
  tauto

/-! ## Lemmas about the Evaluator's next-trigger search -/

/-- Whatever the bounded search returns lies at or after its start point and
satisfies the expression. -/
theorem searchFrom_le_and_matches (e : CronExpr) :
    ∀ (fuel t r : Nat), searchFrom e t fuel = some r →
      t ≤ r ∧ timeMatches e r = true := by
  intro fuel
  induction fuel with
  | zero => intro t r h; simp [searchFrom] at h
  | succ fuel ih =>
    intro t r h
    unfold searchFrom at h
    split at h
    · cases h
      exact ⟨Nat.le_refl _, by assumption⟩
    · have := ih (t + 1) r h
      exact ⟨Nat.le_of_succ_le this.1, this.2⟩

/-- The bounded search finds the first matching instant. -/
theorem searchFrom_eq_first (e : CronExpr) :
    ∀ (fuel t r : Nat), timeMatches e r = true → t ≤ r → r < t + fuel →
      (∀ s, t ≤ s → s < r → timeMatches e s = false) →
      searchFrom e t fuel = some r := by
  intro fuel
  induction fuel with
  | zero => intro t r _ hle hlt _; omega
  | succ fuel ih =>
    intro t r hm hle hlt hfirst
    unfold searchFrom
    by_cases het : t = r
    · subst het
      rw [hm]
      simp
    · have hmt : timeMatches e t = false := hfirst t (Nat.le_refl t) (by omega)
      rw [hmt]
      simp only [Bool.false_eq_true, if_false]
      exact ih (t + 1) r hm (by omega) (by omega)
        (fun s hs1 hs2 => hfirst s (by omega) hs2)

/-- The parsed form of the spec's running example `*/5 * * * *`. -/
def every5 : CronExpr :=
  ⟨[.step 5], [.step 1], [.step 1], [.step 1], [.step 1]⟩

theorem parse5_every5 : parse5 "*/5 * * * *" = some every5 := by decide

theorem timeMatches_every5 (t : Nat) :
    timeMatches every5 t = decide (t % 5 = 0) := by
  have h60 : t % 60 % 5 = t % 5 := Nat.mod_mod_of_dvd t (by norm_num)
  simp only [timeMatches, every5, matchesField, matchesTerm, minOfHour, Nat.mod_one,
    List.any_cons, List.any_nil, Nat.sub_zero, h60, Bool.or_false, Bool.and_true,
    Bool.true_and, Bool.and_self, beq_self_eq_true, Bool.or_self, Bool.and_false]
  by_cases h : t % 5 = 0 <;> simp [h]

/-- `nextTrigger` on `*/5 * * * *` returns the first multiple of five minutes
strictly after the reference instant. -/
theorem nextTrigger_every5 (ref : Nat) :
    nextTrigger every5 ref = some (ref + (5 - ref % 5)) := by
  unfold nextTrigger
  apply searchFrom_eq_first
  · rw [timeMatches_every5]
    simp only [decide_eq_true_eq]
    omega
  · omega
  · show ref + (5 - ref % 5) < ref + 1 + searchHorizon
    unfold searchHorizon
    omega
  · intro s hs1 hs2
    rw [timeMatches_every5]
    simp only [decide_eq_false_iff_not]
    omega

/-! ## Lemmas about the Store operations and the Executor -/

theorem any_id_of_findJob (store : Store) (id : String) (j : Job)
    (h : findJob store id = some j) :
    store.any (fun x => x.id == id) = true := by
  unfold findJob at h
  rw [List.any_eq_true]
  have hp := List.find?_some h
  exact ⟨j, List.mem_of_find?_eq_some h, hp⟩

theorem findJob_map_ite (store : Store) (id : String) (f : Job → Job)
    (hf : ∀ x, (f x).id = x.id) (j : Job) (h : findJob store id = some j) :
    findJob (store.map fun x => if x.id == id then f x else x) id = some (f j) := by
  induction store with
  | nil => simp [findJob] at h
  | cons x xs ih =>
    unfold findJob at h ⊢
    rw [List.map_cons]
    by_cases hx : (x.id == id) = true
    · rw [@List.find?_cons_of_pos _ (fun y => y.id == id) x xs hx] at h
      cases h
      rw [if_pos hx]
      exact @List.find?_cons_of_pos _ (fun y => y.id == id) (f j) _
        (by show ((f j).id == id) = true; rw [hf]; exact hx)
    · rw [@List.find?_cons_of_neg _ (fun y => y.id == id) x xs hx] at h
      rw [if_neg hx, @List.find?_cons_of_neg _ (fun y => y.id == id) x _ hx]
      exact ih h

theorem any_id_map_ite (store : Store) (id : String) (f : Job → Job)
    (hf : ∀ x, (f x).id = x.id) :
    (store.map fun x => if x.id == id then f x else x).any (fun x => x.id == id) =
      store.any (fun x => x.id == id) := by
  induction store with
  | nil => rfl
  | cons x xs ih =>
    simp only [List.map_cons, List.any_cons, ih]
    by_cases hx : (x.id == id) = true
    · simp [hx, hf]
    · simp only [Bool.false_eq_true] at hx
      simp [hx]

theorem markCompleted_eq (store : Store) (id : String) (now : Nat)
    (h : store.any (fun x => x.id == id) = true) :
    markCompleted store id now = some (store.map fun x =>
      if x.id == id then { x with status := .active, lastRun := some now } else x) := by
  unfold markCompleted
  rw [h]
  simp

theorem markFailed_eq (store : Store) (id : String) (now : Nat)
    (h : store.any (fun x => x.id == id) = true) :
    markFailed store id now = some (store.map fun x =>
      if x.id == id then { x with status := .failed, lastRun := some now } else x) := by
  unfold markFailed
  rw [h]
  simp

theorem updateNextRun_eq (store : Store) (id : String) (nr : Nat)
    (h : store.any (fun x => x.id == id) = true) :
    updateNextRun store id nr = some (store.map fun x =>
      if x.id == id then { x with nextRun := some nr } else x) := by
  unfold updateNextRun
  rw [h]
  simp

/-- On a failing handler, `execute` runs exactly the `catch`: it marks the
job failed against the untouched store. -/
theorem execute_handler_fails (store : Store) (job : Job) (now : Nat) :
    execute store job false now = markFailed store job.id now := by
  simp [execute]

/-! ## Uniqueness of live entries -/

theorem keys_mapDelete (m : TaskMap) (k : String) :
    keys (mapDelete m k) = (keys m).filter (fun x => !(x == k)) := by
  induction m with
  | nil => rfl
  | cons p ps ih =>
    simp only [mapDelete, keys, List.filter_cons, List.map_cons] at ih ⊢
    by_cases hp : (!(p.1 == k)) = true
    · simp only [hp, if_true, List.map_cons, ih]
    · simp only [Bool.not_eq_true] at hp
      simp only [hp, Bool.not_true, Bool.false_eq_true, if_false, ih]

theorem nodup_keys_mapDelete (m : TaskMap) (k : String)
    (h : (keys m).Nodup) : (keys (mapDelete m k)).Nodup := by
  rw [keys_mapDelete]
  exact h.filter _

theorem nodup_keys_unscheduleJob (st : SchedulerState) (k : String)
    (h : (keys st.scheduledTasks).Nodup) :
    (keys (unscheduleJob st k).scheduledTasks).Nodup := by
  rw [unscheduleJob_scheduledTasks]
  exact nodup_keys_mapDelete _ _ h

theorem nodup_keys_delete_append (m : TaskMap) (k : String) (v : CronTask)
    (h : (keys m).Nodup) :
    (keys (mapDelete m k ++ [(k, v)])).Nodup := by
  show (List.map _ _).Nodup
  rw [List.map_append]
  apply List.Nodup.append
  · exact nodup_keys_mapDelete _ _ h
  · simp
  · intro a ha hb
    simp only [List.map_cons, List.map_nil, List.mem_singleton] at hb
    exact ((mem_keys_mapDelete m k a).1 ha).2 hb

theorem nodup_keys_scheduleJob (st : SchedulerState) (job : Job)
    (h : (keys st.scheduledTasks).Nodup) :
    (keys (scheduleJob st job).scheduledTasks).Nodup := by
  unfold scheduleJob
  split
  · exact h
  · split
    · exact nodup_keys_unscheduleJob st _ h
    · split
      · exact nodup_keys_unscheduleJob st _ h
      · show (keys (mapSet (unscheduleJob st job.id).scheduledTasks job.id _)).Nodup
        rw [unscheduleJob_scheduledTasks]
        unfold mapSet
        rw [mapHas_mapDelete_self]
        simp only [Bool.false_eq_true, if_false]
        exact nodup_keys_delete_append _ _ _ h

theorem count_keys_scheduleJob_active_valid (st : SchedulerState) (job : Job)
    (e : CronExpr) (h1 : st.isShuttingDown = false)
    (h2 : job.status = JobStatus.active) (h3 : parse5 job.cronSchedule = some e) :
    (keys (scheduleJob st job).scheduledTasks).count job.id = 1 := by
  rw [scheduleJob_tasks_active_valid st job e h1 h2 h3]
  show (List.map _ _).count job.id = 1
  rw [List.map_append, List.count_append]
  have h0 : (keys (mapDelete st.scheduledTasks job.id)).count job.id = 0 :=
    List.count_eq_zero.mpr (fun hmem => ((mem_keys_mapDelete _ _ _).1 hmem).2 rfl)
  rw [show List.map (fun p => p.1) (mapDelete st.scheduledTasks job.id) =
      keys (mapDelete st.scheduledTasks job.id) from rfl, h0]
  simp

/-! ## The claims -/

/-- C1: for every job whose type-specific handler raises an error, after
`execute(job)` completes (without itself throwing), the Store record for that
job has `status = failed`, `lastRun` set to the execution time, and `nextRun`
unchanged from its value before the execution. -/
theorem claimC1_executor_failure_path (store : Store) (job j : Job) (now : Nat)
    (s : Store) (hfind : findJob store job.id = some j)
    (hexec : execute store job false now = some s) :
    findJob s job.id =
      some { j with status := JobStatus.failed, lastRun := some now } := by
  rw [execute_handler_fails,
    markFailed_eq store job.id now (any_id_of_findJob store job.id j hfind)] at hexec
  cases hexec
  exact findJob_map_ite store job.id
    (fun x => { x with status := JobStatus.failed, lastRun := some now })
    (fun x => rfl) j hfind

theorem claimC1_witness :
    findJob [(⟨"a", "A", "d", "*/5 * * * *", "email", JobStatus.failed,
        some 7, some 42⟩ : Job)] "a" =
      some (⟨"a", "A", "d", "*/5 * * * *", "email", JobStatus.failed,
        some 7, some 42⟩ : Job) :=
  claimC1_executor_failure_path
    [⟨"a", "A", "d", "*/5 * * * *", "email", JobStatus.active, none, some 42⟩]
    ⟨"a", "A", "d", "*/5 * * * *", "email", JobStatus.active, none, some 42⟩
    ⟨"a", "A", "d", "*/5 * * * *", "email", JobStatus.active, none, some 42⟩
    7 _ (by decide) (by decide)

/-- C2 (counterexample to the claim as stated): a single reconciliation pass
does not always leave the registered-id set equal to the active-id set.
First conjunct: an active job whose cron expression does not parse is skipped
by registration, so its id is active but never registered.  Second conjunct:
while the scheduler is shutting down, `scheduleJob` rejects the registration,
so an active, valid job is likewise not registered. -/
theorem claimC2_counterexample :
    ("j1" ∈ activeIds [(⟨"j1", "bad", "d", "not-a-cron", "email",
        JobStatus.active, none, none⟩ : Job)] ∧
      "j1" ∉ keys (discoverAndScheduleJobs ⟨[], false, true⟩
        [(⟨"j1", "bad", "d", "not-a-cron", "email",
          JobStatus.active, none, none⟩ : Job)]).scheduledTasks) ∧
    ("j2" ∈ activeIds [(⟨"j2", "ok", "d", "*/5 * * * *", "email",
        JobStatus.active, none, none⟩ : Job)] ∧
      "j2" ∉ keys (discoverAndScheduleJobs ⟨[], true, true⟩
        [(⟨"j2", "ok", "d", "*/5 * * * *", "email",
          JobStatus.active, none, none⟩ : Job)]).scheduledTasks) := by
  decide

/-- C2 (amended): for every Store state S and Timer Registry state R with no
concurrent mutation, with the scheduler not shutting down and every active
job's cron expression valid, after one reconciliation pass
(`discoverAndScheduleJobs`) the set of registered job ids equals the set of
ids of jobs with `status = active` in S. -/
theorem claimC2_reconcile_converges (st : SchedulerState) (store : Store)
    (h1 : st.isShuttingDown = false)
    (h2 : ∀ j ∈ store, j.status = JobStatus.active → (parse5 j.cronSchedule).isSome) :
    ∀ id : String,
      id ∈ keys (discoverAndScheduleJobs st store).scheduledTasks ↔
        id ∈ activeIds store :=
  fun id => reconcile_mem_keys st store h1 h2 id

theorem claimC2_witness :
    "a" ∈ keys (discoverAndScheduleJobs
        ⟨[("old", ⟨"*/5 * * * *"⟩)], false, true⟩
        [(⟨"a", "A", "d", "*/5 * * * *", "email",
            JobStatus.active, none, none⟩ : Job),
          ⟨"old", "O", "d", "*/5 * * * *", "email",
            JobStatus.paused, none, none⟩]).scheduledTasks :=
  (claimC2_reconcile_converges
    ⟨[("old", ⟨"*/5 * * * *"⟩)], false, true⟩
    [⟨"a", "A", "d", "*/5 * * * *", "email", JobStatus.active, none, none⟩,
      ⟨"old", "O", "d", "*/5 * * * *", "email", JobStatus.paused, none, none⟩]
    rfl (by decide) "a").2 (by decide)

/-- C3: for every job whose type-specific handler succeeds, after
`execute(job)` completes, the Store record for that job has
`status = active`, `lastRun` set to the execution time, and `nextRun` equal
to the Evaluator's next trigger instant computed from `job.cronSchedule` at
execution time. -/
theorem claimC3_executor_success_path (store : Store) (job j : Job)
    (now nr : Nat) (s : Store)
    (hnr : calculateNextRunTime job.cronSchedule now = some nr)
    (hfind : findJob store job.id = some j)
    (hexec : execute store job true now = some s) :
    findJob s job.id =
      some { j with status := JobStatus.active, lastRun := some now, nextRun := some nr } := by
  have hany := any_id_of_findJob store job.id j hfind
  have hmc := markCompleted_eq store job.id now hany
  have hfind1 := findJob_map_ite store job.id
    (fun x => { x with status := JobStatus.active, lastRun := some now })
    (fun x => rfl) j hfind
  have hany1 := any_id_of_findJob _ job.id _ hfind1
  have hun := updateNextRun_eq _ job.id nr hany1
  simp only [execute, if_true, hnr, hmc, hun, Option.some.injEq] at hexec
  subst hexec
  exact findJob_map_ite _ job.id
    (fun x => { x with nextRun := some nr }) (fun x => rfl) _ hfind1

theorem claimC3_witness :
    findJob [(⟨"a", "A", "d", "*/5 * * * *", "email", JobStatus.active,
        some 7, some 10⟩ : Job)] "a" =
      some (⟨"a", "A", "d", "*/5 * * * *", "email", JobStatus.active,
        some 7, some 10⟩ : Job) :=
  claimC3_executor_success_path
    [⟨"a", "A", "d", "*/5 * * * *", "email", JobStatus.active, none, none⟩]
    ⟨"a", "A", "d", "*/5 * * * *", "email", JobStatus.active, none, none⟩
    ⟨"a", "A", "d", "*/5 * * * *", "email", JobStatus.active, none, none⟩
    7 10 _ (by decide) (by decide) (by decide)

/-- C4: for every job whose cron expression does not parse, `scheduleJob`
(with the scheduler not shutting down) performs no registration — the call
behaves exactly as `unscheduleJob` of the id, so it returns normally (no
exception reaches the caller) and the job id is not present in the Timer
Registry afterwards. -/
theorem claimC4_invalid_expression_rejected (st : SchedulerState) (job : Job)
    (h1 : st.isShuttingDown = false) (h2 : parse5 job.cronSchedule = none) :
    scheduleJob st job = unscheduleJob st job.id ∧
      mapHas (scheduleJob st job).scheduledTasks job.id = false := by
  have h := scheduleJob_eq_unscheduleJob st job h1 (Or.inr h2)
  exact ⟨h, by rw [h]; exact mapHas_unscheduleJob_self st job.id⟩

theorem claimC4_witness :
    mapHas (scheduleJob ⟨[("bad", ⟨"* * * * *"⟩)], false, true⟩
      ⟨"bad", "B", "d", "not-a-cron", "email", JobStatus.active,
        none, none⟩).scheduledTasks "bad" = false :=
  (claimC4_invalid_expression_rejected _ _ rfl (by decide)).2

/-- C5: for every active job with a valid cron expression (scheduler not
shutting down), registering it twice via `scheduleJob` leaves exactly one live
entry for its id, and the registered-id list contains that id exactly once;
moreover both `scheduleJob` and `unscheduleJob` preserve uniqueness of the
per-id entries, so there is at most one live entry per job id at every
point. -/
theorem claimC5_register_idempotent (st : SchedulerState) (job : Job)
    (e : CronExpr) (h1 : st.isShuttingDown = false)
    (h2 : job.status = JobStatus.active) (h3 : parse5 job.cronSchedule = some e) :
    (keys (scheduleJob (scheduleJob st job) job).scheduledTasks).count job.id = 1 ∧
    (∀ (st' : SchedulerState) (x : Job), (keys st'.scheduledTasks).Nodup →
      (keys (scheduleJob st' x).scheduledTasks).Nodup) ∧
    (∀ (st' : SchedulerState) (i : String), (keys st'.scheduledTasks).Nodup →
      (keys (unscheduleJob st' i).scheduledTasks).Nodup) := by
  refine ⟨?_, fun st' x h => nodup_keys_scheduleJob st' x h,
    fun st' i h => nodup_keys_unscheduleJob st' i h⟩
  exact count_keys_scheduleJob_active_valid (scheduleJob st job) job e
    ((scheduleJob_flags st job).1.trans h1) h2 h3

theorem claimC5_witness :
    (keys (scheduleJob (scheduleJob ⟨[], false, true⟩
      ⟨"a", "A", "d", "*/5 * * * *", "email", JobStatus.active, none, none⟩)
      ⟨"a", "A", "d", "*/5 * * * *", "email", JobStatus.active,
        none, none⟩).scheduledTasks).count "a" = 1 :=
  (claimC5_register_idempotent ⟨[], false, true⟩
    ⟨"a", "A", "d", "*/5 * * * *", "email", JobStatus.active, none, none⟩
    ⟨[.step 5], [.step 1], [.step 1], [.step 1], [.step 1]⟩
    rfl rfl (by decide)).1

/-- C6: for every valid 5-field cron expression and every reference time, a
successful `nextTrigger` returns an instant strictly later than the reference
time; and for `*/5 * * * *` the call always succeeds and applying it again
with the returned instant as the new reference advances by exactly 5 minutes
each call. -/
theorem claimC6_next_trigger_strict_and_periodic :
    (∀ (s : String) (e : CronExpr) (ref t : Nat),
      parse5 s = some e → nextTrigger e ref = some t → ref < t) ∧
    (∀ ref : Nat, ∃ t : Nat,
      calculateNextRunTime "*/5 * * * *" ref = some t ∧ ref < t ∧
      calculateNextRunTime "*/5 * * * *" t = some (t + 5)) := by
  constructor
  · intro s e ref t _ ht
    have := searchFrom_le_and_matches e searchHorizon (ref + 1) t ht
    omega
  · intro ref
    have h5 : ref % 5 < 5 := Nat.mod_lt _ (by omega)
    refine ⟨ref + (5 - ref % 5), ?_, by omega, ?_⟩
    · unfold calculateNextRunTime
      rw [parse5_every5]
      exact nextTrigger_every5 ref
    · unfold calculateNextRunTime
      rw [parse5_every5]
      show nextTrigger every5 (ref + (5 - ref % 5)) = _
      rw [nextTrigger_every5]
      congr 1
      omega

theorem claimC6_witness :
    (3 : Nat) < 5 ∧
    (∃ t : Nat, calculateNextRunTime "*/5 * * * *" 7 = some t ∧ 7 < t ∧
      calculateNextRunTime "*/5 * * * *" t = some (t + 5)) :=
  ⟨claimC6_next_trigger_strict_and_periodic.1 "*/5 * * * *"
      ⟨[.step 5], [.step 1], [.step 1], [.step 1], [.step 1]⟩ 3 5
      (by decide) (by decide),
    claimC6_next_trigger_strict_and_periodic.2 7⟩

/-- C7 (counterexample to the claim as stated): `execute` does not always
return normally on a handler error.  When the job's record is absent from the
Store (a job deleted between scheduling and firing), the `catch`'s own
`markJobFailed` throws `Job not found`, and the rejection escapes `execute`
into the Timer Registry's trigger callback: here, on an empty store, `execute`
is `none` and the firing's outcome carries that escaped exception. -/
theorem claimC7_counterexample :
    execute [] (⟨"gone", "G", "d", "*/5 * * * *", "email",
      JobStatus.active, none, none⟩ : Job) false 7 = none ∧
    (onFire ⟨[("gone", ⟨"*/5 * * * *"⟩)], false, true⟩ []
      (⟨"gone", "G", "d", "*/5 * * * *", "email",
        JobStatus.active, none, none⟩ : Job) false 7).2 =
      FireOutcome.executed none := by
  decide

/-- C7 (amended): for every job whose record is present in the Store and
whose type-specific handler raises an error, `execute(job)` returns normally
(no exception escapes into the Timer Registry's trigger callback), and the
trigger callback never alters the scheduler state, so no timer entry of this
or any other job is removed as a consequence of the failure. -/
theorem claimC7_no_exception_propagation (st : SchedulerState) (store : Store)
    (job : Job) (now : Nat)
    (h : store.any (fun x => x.id == job.id) = true) :
    (execute store job false now).isSome = true ∧
    (onFire st store job false now).1 = st := by
  constructor
  · rw [execute_handler_fails, markFailed_eq store job.id now h]
    rfl
  · unfold onFire
    split <;> rfl

theorem claimC7_witness :
    (execute [(⟨"a", "A", "d", "*/5 * * * *", "email",
        JobStatus.active, none, none⟩ : Job)]
      ⟨"a", "A", "d", "*/5 * * * *", "email", JobStatus.active, none, none⟩
      false 7).isSome = true ∧
    (onFire ⟨[("a", ⟨"*/5 * * * *"⟩)], false, true⟩
      [(⟨"a", "A", "d", "*/5 * * * *", "email",
        JobStatus.active, none, none⟩ : Job)]
      ⟨"a", "A", "d", "*/5 * * * *", "email", JobStatus.active, none, none⟩
      false 7).1 = ⟨[("a", ⟨"*/5 * * * *"⟩)], false, true⟩ :=
  claimC7_no_exception_propagation ⟨[("a", ⟨"*/5 * * * *"⟩)], false, true⟩ _ _ 7
    (by decide)

/-- C8: after `shutdown()` the shutting-down flag is set, every subsequent
`scheduleJob` call performs no registration (it returns the state unchanged),
every timer firing is rejected before any execution starts, the Discovery
Loop is stopped, all Timer Registry entries are cancelled (the task count is
0), and the awaited grace period is the fixed bound of 1000 ms. -/
theorem claimC8_shutdown_behavior (st : SchedulerState) :
    ((shutdown st).1).isShuttingDown = true ∧
    (∀ job : Job, scheduleJob (shutdown st).1 job = (shutdown st).1) ∧
    (∀ (store : Store) (job : Job) (ok : Bool) (now : Nat),
      (onFire (shutdown st).1 store job ok now).2 = FireOutcome.skipped) ∧
    ((shutdown st).1).discoveryRunning = false ∧
    ((shutdown st).1).scheduledTasks.length = 0 ∧
    (shutdown st).2 = 1000 :=
  ⟨rfl, fun _ => rfl, fun _ _ _ _ => rfl, rfl, rfl, rfl⟩

/-- C9: for every job id with no live entry, `unscheduleJob` is a no-op: it
raises no error and leaves the scheduler state (in particular the entry map)
unchanged. -/
theorem claimC9_cancel_unregistered_noop (st : SchedulerState) (jobId : String)
    (h : mapHas st.scheduledTasks jobId = false) :
    unscheduleJob st jobId = st := by
  unfold unscheduleJob
  rw [h]
  simp

theorem claimC9_witness :
    unscheduleJob ⟨[("x", ⟨"* * * * *"⟩)], false, true⟩ "y" =
      ⟨[("x", ⟨"* * * * *"⟩)], false, true⟩ :=
  claimC9_cancel_unregistered_noop ⟨[("x", ⟨"* * * * *"⟩)], false, true⟩ "y"
    (by decide)

/-- C10: for every job whose status is not `active` (scheduler not shutting
down), `scheduleJob(job)` behaves exactly as `unscheduleJob` of the job's id:
any pre-existing live entry is cancelled and removed, nothing is installed,
and the call returns without error, leaving the id unregistered. -/
theorem claimC10_nonactive_schedule_unschedules (st : SchedulerState)
    (job : Job) (h1 : st.isShuttingDown = false)
    (h2 : job.status ≠ JobStatus.active) :
    scheduleJob st job = unscheduleJob st job.id ∧
      mapHas (scheduleJob st job).scheduledTasks job.id = false := by
  have h := scheduleJob_eq_unscheduleJob st job h1 (Or.inl h2)
  exact ⟨h, by rw [h]; exact mapHas_unscheduleJob_self st job.id⟩

theorem claimC10_witness :
    scheduleJob ⟨[("p", ⟨"*/5 * * * *"⟩)], false, true⟩
      ⟨"p", "P", "d", "*/5 * * * *", "email", JobStatus.paused, none, none⟩ =
      unscheduleJob ⟨[("p", ⟨"*/5 * * * *"⟩)], false, true⟩ "p" :=
  (claimC10_nonactive_schedule_unschedules _ _ rfl (by decide)).1

end Digantara
